import Mathlib

/-!
Shallow embedding of the buildkite test-collector core
(`src/buildkite_test_collector/collector/payload.py`) together with a
spec-model of the submission pipeline (`collector/api.py`, whose source is
referenced only from its tests here), and proofs of the specified
properties of batching, serialisation and submission.
-/

set_option autoImplicit false

/-- Modelled from the spec: `Instant` (collector/instant.py is not part of the
sources here) is an opaque point-in-time value supporting subtraction that
yields a duration.  We model an instant as an integer number of seconds, and
a duration (`timedelta`, with `total_seconds()` the identity) as an integer. -/
abbrev Instant := Int

/-- A duration, in seconds (Python `timedelta`, observed via `total_seconds()`). -/
abbrev Timedelta := Int

/-- JSON values as produced by the `as_json` family.  Python dicts preserve
insertion order, so an object is an ordered association list of key/value
pairs. -/
inductive Json where
  | null
  | str (s : String)
  | num (n : Int)
  | bool (b : Bool)
  | arr (xs : List Json)
  | obj (kvs : List (String × Json))

/-- First value bound to a key in an ordered JSON object body, `none` when the
key is absent (the observation the wire-format claims are about). -/
def kvLookup (k : String) : List (String × Json) → Option Json
  | [] => none
  | (k', v) :: rest => if k = k' then some v else kvLookup k rest

/-- Python run-time values, as far as the dynamic type check in
`TestData.tag_execution` can distinguish them: a string or some non-string
value. -/
inductive PyVal where
  | str (s : String)
  | intVal (n : Int)
  | noneVal
  | boolVal (b : Bool)

/-- Mirrors Python `isinstance(v, str)`. -/
def PyVal.isStr : PyVal → Bool
  | .str _ => true
  | _ => false

/-- Modelled from the spec: the run-environment descriptor (collector/run_env.py
is not part of the sources here) is an opaque value object exposing
`as_json()`. -/
structure RunEnv where
  as_json : Json

/-- `TestResultPassed` (payload.py line 19). -/
structure TestResultPassed where

/-- `TestResultFailed` (payload.py line 24): optional human-readable reason and
optional structured expansion, a sequence of mappings from label to lines. -/
structure TestResultFailed where
  failure_reason : Option String := none
  failure_expanded : Option (List (List (String × List String))) := none

/-- `TestResultSkipped` (payload.py line 31). -/
structure TestResultSkipped where

/-- The `result` field of `TestData`: one of the three result dataclasses or
`None`.  We fold the `Union` into a single sum type. -/
inductive TestResult where
  | passed
  | failed (r : TestResultFailed)
  | skipped

/-- `TestSpan` (payload.py line 36).  The Python field `section` is a literal
string; `section` is a Lean keyword so the field is named `sectionName`. -/
structure TestSpan where
  sectionName : String
  duration : Timedelta
  start_at : Option Instant := none
  end_at : Option Instant := none
  detail : Option String := none

/-- `TestSpan.as_json` (payload.py line 50): `section` and `duration` always,
then `detail`, `start_at`, `end_at` when present, the instants encoded as
seconds elapsed since `started_at`. -/
def TestSpan.as_json (s : TestSpan) (started_at : Instant) : List (String × Json) :=
  [("section", Json.str s.sectionName), ("duration", Json.num s.duration)]
    ++ (match s.detail with
        | some d => [("detail", Json.str d)]
        | none => [])
    ++ (match s.start_at with
        | some t => [("start_at", Json.num (t - started_at))]
        | none => [])
    ++ (match s.end_at with
        | some t => [("end_at", Json.num (t - started_at))]
        | none => [])

/-- `TestHistory` (payload.py line 69). -/
structure TestHistory where
  start_at : Option Instant := none
  end_at : Option Instant := none
  duration : Option Timedelta := none
  children : List TestSpan := []

/-- `TestHistory.is_finished` (payload.py line 83). -/
def TestHistory.is_finished (h : TestHistory) : Bool :=
  h.end_at.isSome

/-- `TestHistory.push_span` (payload.py line 87). -/
def TestHistory.push_span (h : TestHistory) (span : TestSpan) : TestHistory :=
  { h with children := h.children ++ [span] }

/-- `TestHistory.as_json` (payload.py line 91). -/
def TestHistory.as_json (h : TestHistory) (started_at : Instant) : List (String × Json) :=
  [("section", Json.str "top"),
   ("children", Json.arr (h.children.map (fun span => Json.obj (span.as_json started_at))))]
    ++ (match h.start_at with
        | some t => [("start_at", Json.num (t - started_at))]
        | none => [])
    ++ (match h.end_at with
        | some t => [("end_at", Json.num (t - started_at))]
        | none => [])
    ++ (match h.duration with
        | some d => [("duration", Json.num d)]
        | none => [])

/-- `TestData` (payload.py line 110).  The UUID `id` is modelled by its string
form (`as_json` emits `str(self.id)`); `tags` is an insertion-ordered Python
dict, modelled as an association list with unique keys maintained by
`dictInsert`. -/
structure TestData where
  id : String
  scope : String
  name : String
  history : TestHistory
  location : Option String := none
  file_name : Option String := none
  tags : List (String × String) := []
  result : Option TestResult := none

/-- Python dict update `d[k] = v`: overwrite in place when the key exists
(keeping its position), otherwise append at the end. -/
def dictInsert (d : List (String × String)) (k v : String) : List (String × String) :=
  if d.any (fun kv => kv.1 = k) then
    d.map (fun kv => if kv.1 = k then (k, v) else kv)
  else
    d ++ [(k, v)]

/-- `TestData.start` (payload.py line 125). -/
def TestData.start (id scope name : String) (location file_name : Option String)
    (now : Instant) : TestData :=
  { id := id, scope := scope, name := name, location := location,
    file_name := file_name, history := { start_at := some now } }

/-- `TestData.tag_execution` (payload.py line 142): raises `TypeError` unless
both arguments are strings, otherwise returns a copy with the tag set.  The
dynamic type check is modelled over `PyVal` and the raise as `Except.error`. -/
def TestData.tag_execution (t : TestData) (key val : PyVal) : Except String TestData :=
  match key, val with
  | .str k, .str v => .ok { t with tags := dictInsert t.tags k v }
  | _, _ => .error "Expected string for key and value"

/-- `TestData.is_finished` (payload.py line 175): `self.history` is always a
(truthy) dataclass instance, so this is `history.is_finished()`. -/
def TestData.is_finished (t : TestData) : Bool :=
  t.history.is_finished

/-- `TestData.finish` (payload.py line 151): no-op when already finished,
otherwise stamps `end_at = now` and `duration = end_at - history.start_at`.
`Instant.now()` is made explicit as the `now` argument.  The source subtracts
the optional `history.start_at` directly (always set by `TestData.start`);
the subtraction is modelled pointwise under the option. -/
def TestData.finish (t : TestData) (now : Instant) : TestData :=
  if t.is_finished then t
  else
    { t with history :=
        { t.history with
            end_at := some now,
            duration := t.history.start_at.map (fun s => now - s) } }

/-- `TestData.passed` (payload.py line 162). -/
def TestData.passed (t : TestData) : TestData :=
  { t with result := some .passed }

/-- `TestData.failed` (payload.py line 166). -/
def TestData.failed (t : TestData) (failure_reason : Option String)
    (failure_expanded : Option (List (List (String × List String)))) : TestData :=
  { t with result := some (.failed ⟨failure_reason, failure_expanded⟩) }

/-- `TestData.skipped` (payload.py line 171). -/
def TestData.skipped (t : TestData) : TestData :=
  { t with result := some .skipped }

/-- `TestData.push_span` (payload.py line 179). -/
def TestData.push_span (t : TestData) (span : TestSpan) : TestData :=
  { t with history := t.history.push_span span }

/-- Encoding of an optional string attribute emitted unconditionally
(Python `None` becomes JSON `null`). -/
def optStrJson : Option String → Json
  | some s => Json.str s
  | none => Json.null

/-- Wire encoding of the `failure_expanded` structure, passed through as-is by
the source. -/
def expandedJson (e : List (List (String × List String))) : Json :=
  Json.arr (e.map (fun m => Json.obj (m.map (fun kv => (kv.1, Json.arr (kv.2.map Json.str))))))

/-- `TestData.as_json` (payload.py line 183): `id`, `scope`, `name`,
`location`, `file_name`, `history` always (the optionals as `null`); `tags`
only when non-empty; `result`/`failure_reason`/`failure_expanded` according
to the result variant. -/
def TestData.as_json (t : TestData) (started_at : Instant) : List (String × Json) :=
  [("id", Json.str t.id), ("scope", Json.str t.scope), ("name", Json.str t.name),
   ("location", optStrJson t.location), ("file_name", optStrJson t.file_name),
   ("history", Json.obj (t.history.as_json started_at))]
    ++ (if t.tags.length > 0 then
          [("tags", Json.obj (t.tags.map (fun kv => (kv.1, Json.str kv.2))))]
        else [])
    ++ (match t.result with
        | some .passed => [("result", Json.str "passed")]
        | some (.failed r) =>
          [("result", Json.str "failed")]
            ++ (match r.failure_reason with
                | some fr => [("failure_reason", Json.str fr)]
                | none => [])
            ++ (match r.failure_expanded with
                | some fe => [("failure_expanded", expandedJson fe)]
                | none => [])
        | some .skipped => [("result", Json.str "skipped")]
        | none => [])

/-- `Payload` (payload.py line 213). -/
structure Payload where
  run_env : RunEnv
  data : List TestData
  started_at : Option Instant
  finished_at : Option Instant

/-- `Payload.init` (payload.py line 221). -/
def Payload.init (run_env : RunEnv) : Payload :=
  { run_env := run_env, data := [], started_at := none, finished_at := none }

/-- `Payload.as_json` (payload.py line 232): filter the finished test data,
warn when any were dropped, and emit the wire dict.  The warning side effect
is returned as the second component (`true` iff the logger warned).  The
source passes the optional `started_at` straight into `TestData.as_json`;
an absent run start would fault inside the external `Instant` subtraction,
modelled here by defaulting to the epoch. -/
def Payload.as_json (p : Payload) : List (String × Json) × Bool :=
  let finished_data := p.data.filter (fun td => td.is_finished)
  ([("format", Json.str "json"),
    ("run_env", p.run_env.as_json),
    ("data", Json.arr (finished_data.map
      (fun td => Json.obj (td.as_json (p.started_at.getD 0)))))],
   decide (finished_data.length < p.data.length))

/-- `Payload.push_test_data` (payload.py line 248). -/
def Payload.push_test_data (p : Payload) (report : TestData) : Payload :=
  { p with data := p.data ++ [report] }

/-- `Payload.is_started` (payload.py line 252). -/
def Payload.is_started (p : Payload) : Bool :=
  p.started_at.isSome

/-- `Payload.started` (payload.py line 256), with `Instant.now()` explicit. -/
def Payload.started (p : Payload) (now : Instant) : Payload :=
  { p with started_at := some now }

/-- `Payload.__into_batches` (payload.py line 264), the self-recursive helper:
while more than `batch_size` items remain, split off the first `batch_size`
into a copy of the payload and recurse on the rest.  The recursion consumes
`batch_size ≥ 1` items per step, so `fuel` initialised to the data length
dominates it; the `fuel = 0` case is then only reached with empty data, where
it returns exactly what the `len(data) <= batch_size` branch would. -/
def intoBatchesGo (p : Payload) (batch_size : Nat) :
    Nat → List TestData → List Payload → List Payload
  | 0, data, batches => batches ++ [{ p with data := data }]
  | fuel + 1, data, batches =>
    if data.length ≤ batch_size then
      batches ++ [{ p with data := data }]
    else
      intoBatchesGo p batch_size fuel (data.drop batch_size)
        (batches ++ [{ p with data := data.take batch_size }])

/-- `Payload.into_batches` (payload.py line 260). -/
def Payload.into_batches (p : Payload) (batch_size : Nat := 100) : List Payload :=
  intoBatchesGo p batch_size p.data.length p.data []

/-- Modelled from the spec: the outcome of one POST to the uploads endpoint as
seen by `submit` (collector/api.py is not part of the sources here) — either
a connection-level or read-level timeout exception (carrying its type name
and message) or an HTTP response with a status code and parsed body. -/
inductive HttpResult where
  | timeout (excName excMsg : String)
  | response (status : Nat) (body : Json)

/-- Modelled from the spec: the observable effect of `submit` on one batch —
the value yielded to the caller (`none` on any failure, the response on a
2xx status), the warning diagnostic emitted (the exception's type name and
message on a timeout), and the serialized request body POSTed (`none` when
no network call was issued). -/
structure SubmitStep where
  result : Option (Nat × Json)
  warning : Option (String × String)
  request : Option Json

/-- Modelled from the spec: a credential is usable only when configured and
not empty/whitespace-only. -/
def tokenValid : Option String → Bool
  | none => false
  | some s => !(s.data.all (fun c => c.isWhitespace))

/-- Modelled from the spec: one batch submission attempt — serialize the batch
payload, POST it, and classify the outcome: timeout yields `none` with a
warning naming the exception type; a non-2xx response yields `none` silently;
a 2xx response is yielded to the caller. -/
def submitStep (h : HttpResult) (b : Payload) : SubmitStep :=
  let body := Json.obj (b.as_json).1
  match h with
  | .timeout n m => { result := none, warning := some (n, m), request := some body }
  | .response st rbody =>
    if 200 ≤ st ∧ st < 300 then
      { result := some (st, rbody), warning := none, request := some body }
    else
      { result := none, warning := none, request := some body }

/-- Modelled from the spec: submit the batches in order, one POST each; the
transport's outcome for the i-th request is `transport i`. -/
def submitGo (transport : Nat → HttpResult) : Nat → List Payload → List SubmitStep
  | _, [] => []
  | i, b :: rest => submitStep (transport i) b :: submitGo transport (i + 1) rest

/-- Modelled from the spec: `API.submit(payload, batch_size)` — partition the
payload into batches; with no usable credential, yield `None` for every batch
without any network call; otherwise submit each batch in order, one result
per batch, one batch's failure never aborting the others. -/
def API.submit (token : Option String) (transport : Nat → HttpResult)
    (p : Payload) (batch_size : Nat := 100) : List SubmitStep :=
  let batches := p.into_batches batch_size
  if tokenValid token then
    submitGo transport 0 batches
  else
    batches.map (fun _ => { result := none, warning := none, request := none })

/-- Join of the data fields of the batches produced by the batching helper:
whatever was already in `batches`, then `data` itself, in order. -/
theorem intoBatchesGo_join (p : Payload) (b : Nat) :
    ∀ fuel data batches, ((intoBatchesGo p b fuel data batches).map Payload.data).flatten
      = (batches.map Payload.data).flatten ++ data := by
  intro fuel
  induction fuel with
  | zero => intro data batches; simp [intoBatchesGo]
  | succ n ih =>
    intro data batches
    by_cases h : data.length ≤ b
    · simp [intoBatchesGo, h]
    · rw [intoBatchesGo, if_neg h, ih]
      simp [List.append_assoc]

/-- Every batch the helper emits holds at most `b` entries, provided the fuel
dominates the data length and the accumulator already satisfies the bound. -/
theorem intoBatchesGo_sizes (p : Payload) (b : Nat) (hb : 1 ≤ b) :
    ∀ fuel data batches, data.length ≤ fuel →
      (∀ q ∈ batches, q.data.length ≤ b) →
      ∀ q ∈ intoBatchesGo p b fuel data batches, q.data.length ≤ b := by
  intro fuel
  induction fuel with
  | zero =>
    intro data batches hlen hacc q hq
    have hd : data.length = 0 := Nat.le_zero.mp hlen
    simp [intoBatchesGo] at hq
    rcases hq with hq | hq
    · exact hacc q hq
    · subst hq; simp [hd]
  | succ n ih =>
    intro data batches hlen hacc q hq
    by_cases h : data.length ≤ b
    · rw [intoBatchesGo, if_pos h] at hq
      simp at hq
      rcases hq with hq | hq
      · exact hacc q hq
      · subst hq; simpa using h
    · rw [intoBatchesGo, if_neg h] at hq
      refine ih (data.drop b) _ ?_ ?_ q hq
      · have : data.length - b ≤ n := by omega
        simpa using this
      · intro q' hq'
        simp at hq'
        rcases hq' with hq' | hq'
        · exact hacc q' hq'
        · subst hq'
          simp [List.length_take]

/-- Number of batches the helper emits: one more than the accumulator for
every started chunk, `(len - 1) / b + 1` chunks in total (a single possibly
empty chunk when `len ≤ b`). -/
theorem intoBatchesGo_count (p : Payload) (b : Nat) (hb : 1 ≤ b) :
    ∀ fuel data batches, data.length ≤ fuel →
      (intoBatchesGo p b fuel data batches).length
        = batches.length + ((data.length - 1) / b + 1) := by
  intro fuel
  induction fuel with
  | zero =>
    intro data batches hlen
    have hd : data.length = 0 := Nat.le_zero.mp hlen
    simp [intoBatchesGo, hd]
  | succ n ih =>
    intro data batches hlen
    by_cases h : data.length ≤ b
    · have : (data.length - 1) / b = 0 := Nat.div_eq_of_lt (by omega)
      simp [intoBatchesGo, h, this]
    · rw [intoBatchesGo, if_neg h, ih]
      · have hdrop : (data.drop b).length = data.length - b := by simp
        have harith : (data.length - b - 1) / b + 1 = (data.length - 1) / b := by
          have : data.length - 1 = (data.length - b - 1) + b := by omega
          rw [this, Nat.add_div_right _ (by omega)]
        simp [hdrop]
        omega
      · simp; omega

/-- Every batch the helper emits shares the source payload's `run_env`,
`started_at` and `finished_at` (given the accumulator already does). -/
theorem intoBatchesGo_fields (p : Payload) (b : Nat) :
    ∀ fuel data batches,
      (∀ q ∈ batches, q.run_env = p.run_env ∧ q.started_at = p.started_at
        ∧ q.finished_at = p.finished_at) →
      ∀ q ∈ intoBatchesGo p b fuel data batches,
        q.run_env = p.run_env ∧ q.started_at = p.started_at
          ∧ q.finished_at = p.finished_at := by
  intro fuel
  induction fuel with
  | zero =>
    intro data batches hacc q hq
    simp [intoBatchesGo] at hq
    rcases hq with hq | hq
    · exact hacc q hq
    · subst hq; exact ⟨rfl, rfl, rfl⟩
  | succ n ih =>
    intro data batches hacc q hq
    by_cases h : data.length ≤ b
    · rw [intoBatchesGo, if_pos h] at hq
      simp at hq
      rcases hq with hq | hq
      · exact hacc q hq
      · subst hq; exact ⟨rfl, rfl, rfl⟩
    · rw [intoBatchesGo, if_neg h] at hq
      refine ih _ _ ?_ q hq
      intro q' hq'
      simp at hq'
      rcases hq' with hq' | hq'
      · exact hacc q' hq'
      · subst hq'; exact ⟨rfl, rfl, rfl⟩

/-- When no more than `b` items remain, the helper emits a single final batch
holding exactly the remaining data, for any fuel. -/
theorem intoBatchesGo_small (p : Payload) (b fuel : Nat) (data : List TestData)
    (batches : List Payload) (h : data.length ≤ b) :
    intoBatchesGo p b fuel data batches = batches ++ [{ p with data := data }] := by
  cases fuel with
  | zero => rfl
  | succ n => rw [intoBatchesGo, if_pos h]

/-- A sample unfinished test execution. -/
def sampleUnfinished : TestData :=
  { id := "0001", scope := "suite", name := "test one",
    history := { start_at := some 5 } }

/-- A second sample unfinished test execution. -/
def sampleUnfinished2 : TestData :=
  { id := "0002", scope := "suite", name := "test two",
    history := { start_at := some 6 } }

/-- A sample finished, passed test execution. -/
def sampleFinished : TestData :=
  { id := "0003", scope := "suite", name := "test three",
    history := { start_at := some 5, end_at := some 9, duration := some 4 },
    result := some .passed }

/-- A sample payload holding three test executions. -/
def samplePayload : Payload :=
  { run_env := ⟨Json.null⟩,
    data := [sampleUnfinished, sampleUnfinished2, sampleFinished],
    started_at := some 2, finished_at := none }

/-- C1: for every payload `p` and batch size `b ≥ 1`, concatenating the `data`
collections of `p.into_batches b` in order reproduces `p.data` exactly, and
every batch's data collection has at most `b` entries. -/
theorem into_batches_concat_and_bound (p : Payload) (b : Nat) (hb : 1 ≤ b) :
    ((p.into_batches b).map Payload.data).flatten = p.data
    ∧ ∀ q ∈ p.into_batches b, q.data.length ≤ b := by
  constructor
  · simpa using intoBatchesGo_join p b p.data.length p.data []
  · intro q hq
    exact intoBatchesGo_sizes p b hb p.data.length p.data [] le_rfl (by simp) q hq

/-- Witness for C1 at a concrete three-test payload and batch size 2. -/
theorem into_batches_concat_and_bound_witness :
    ((samplePayload.into_batches 2).map Payload.data).flatten = samplePayload.data
    ∧ ∀ q ∈ samplePayload.into_batches 2, q.data.length ≤ 2 :=
  into_batches_concat_and_bound samplePayload 2 (by decide)

/-- C2: for every payload holding `N` entries and batch size `B ≥ 1`,
`into_batches B` returns `⌈N/B⌉` batches (a degenerate single, possibly
empty, batch when `N ≤ B`), and every batch shares the source payload's
`run_env`, `started_at` and `finished_at`; the source payload itself is
untouched (the operation is a pure function of an immutable value). -/
theorem into_batches_count_and_shared_fields (p : Payload) (b : Nat) (hb : 1 ≤ b) :
    (p.into_batches b).length
        = (if p.data.length = 0 then 1 else (p.data.length + b - 1) / b)
    ∧ (p.data.length ≤ b → p.into_batches b = [p])
    ∧ ∀ q ∈ p.into_batches b,
        q.run_env = p.run_env ∧ q.started_at = p.started_at
          ∧ q.finished_at = p.finished_at := by
  refine ⟨?_, ?_, ?_⟩
  · rw [Payload.into_batches, intoBatchesGo_count p b hb p.data.length p.data [] le_rfl]
    by_cases h0 : p.data.length = 0
    · simp [h0]
    · have h1 : 1 ≤ p.data.length := Nat.one_le_iff_ne_zero.mpr h0
      have : p.data.length + b - 1 = (p.data.length - 1) + b := by omega
      rw [if_neg h0, this, Nat.add_div_right _ (by omega)]
      simp
  · intro hle
    rw [Payload.into_batches, intoBatchesGo_small p b _ _ _ hle]
    simp
  · intro q hq
    exact intoBatchesGo_fields p b p.data.length p.data [] (by simp) q hq

/-- Witness for C2 at a concrete three-test payload and batch size 2. -/
theorem into_batches_count_and_shared_fields_witness :
    (samplePayload.into_batches 2).length
        = (if samplePayload.data.length = 0 then 1
           else (samplePayload.data.length + 2 - 1) / 2)
    ∧ (samplePayload.data.length ≤ 2 → samplePayload.into_batches 2 = [samplePayload])
    ∧ ∀ q ∈ samplePayload.into_batches 2,
        q.run_env = samplePayload.run_env ∧ q.started_at = samplePayload.started_at
          ∧ q.finished_at = samplePayload.finished_at :=
  into_batches_count_and_shared_fields samplePayload 2 (by decide)

/-- Dropping elements under `filter` shortens the list exactly when some
element fails the predicate. -/
theorem filter_length_lt_iff {α : Type} (l : List α) (f : α → Bool) :
    (l.filter f).length < l.length ↔ ∃ x ∈ l, f x = false := by
  induction l with
  | nil => simp
  | cons x xs ih =>
    cases hx : f x
    · simp only [List.filter_cons, hx, List.length_cons, Bool.false_eq_true, if_false]
      constructor
      · intro _; exact ⟨x, by simp, hx⟩
      · intro _; exact Nat.lt_succ_of_le (List.length_filter_le f xs)
    · simp [List.filter_cons, hx, Nat.succ_lt_succ_iff, ih]

/-- C3: `Payload.as_json` emits exactly the keys `format` (bound to
`"json"`), `run_env` (the encoded run environment) and `data` (the encodings
of exactly the finished test data entries, in their original order), and the
warning diagnostic fires exactly when at least one entry was dropped as
unfinished.  The model is a total function: no input raises. -/
theorem payload_as_json_shape (p : Payload) :
    (p.as_json).1.map Prod.fst = ["format", "run_env", "data"]
    ∧ kvLookup "format" (p.as_json).1 = some (Json.str "json")
    ∧ kvLookup "run_env" (p.as_json).1 = some p.run_env.as_json
    ∧ kvLookup "data" (p.as_json).1
        = some (Json.arr ((p.data.filter (fun td => td.is_finished)).map
            (fun td => Json.obj (td.as_json (p.started_at.getD 0)))))
    ∧ ((p.as_json).2 = true ↔ ∃ td ∈ p.data, td.is_finished = false) := by
  refine ⟨rfl, ?_, ?_, ?_, ?_⟩
  · simp [Payload.as_json, kvLookup]
  · simp [Payload.as_json, kvLookup]
  · simp [Payload.as_json, kvLookup]
  · simp only [Payload.as_json, decide_eq_true_eq]
    exact filter_length_lt_iff p.data (fun td => td.is_finished)

/-- Already-finished test data is returned unchanged by `finish`. -/
theorem finish_of_finished (t : TestData) (n : Instant) (h : t.is_finished = true) :
    t.finish n = t := by
  simp [TestData.finish, h]

/-- `finish` always yields finished test data. -/
theorem is_finished_finish (t : TestData) (n : Instant) :
    (t.finish n).is_finished = true := by
  by_cases h : t.is_finished
  · rw [finish_of_finished t n h]; exact h
  · have h' : t.is_finished = false := by simpa using h
    simp only [TestData.finish, h', Bool.false_eq_true, if_false]
    simp [TestData.is_finished, TestHistory.is_finished]

/-- C4: `finish` is idempotent — on finished data it returns the value
unchanged (never re-stamps `end_at`), so finishing twice equals finishing
once; on unfinished data it stamps `end_at` with the current instant and sets
`duration = end_at - history.start_at`, leaving identity fields intact. -/
theorem finish_idempotent (t : TestData) (n1 n2 : Instant) :
    (t.is_finished = true → t.finish n1 = t)
    ∧ (t.finish n1).finish n2 = t.finish n1
    ∧ (t.is_finished = false →
        (t.finish n1).history.end_at = some n1
        ∧ (∀ s, t.history.start_at = some s →
            (t.finish n1).history.duration = some (n1 - s))
        ∧ (t.finish n1).id = t.id ∧ (t.finish n1).result = t.result
        ∧ (t.finish n1).tags = t.tags) := by
  refine ⟨fun h => finish_of_finished t n1 h,
    finish_of_finished (t.finish n1) n2 (is_finished_finish t n1), ?_⟩
  intro h
  refine ⟨?_, ?_, ?_, ?_, ?_⟩ <;> simp [TestData.finish, h]

/-- Witness for C4: a concrete unfinished test, finished at instants 9 then
12, and a concrete finished test. -/
theorem finish_idempotent_witness :
    (sampleUnfinished.is_finished = true → sampleUnfinished.finish 9 = sampleUnfinished)
    ∧ (sampleUnfinished.finish 9).finish 12 = sampleUnfinished.finish 9
    ∧ (sampleUnfinished.is_finished = false →
        (sampleUnfinished.finish 9).history.end_at = some 9
        ∧ (∀ s, sampleUnfinished.history.start_at = some s →
            (sampleUnfinished.finish 9).history.duration = some (9 - s))
        ∧ (sampleUnfinished.finish 9).id = sampleUnfinished.id
        ∧ (sampleUnfinished.finish 9).result = sampleUnfinished.result
        ∧ (sampleUnfinished.finish 9).tags = sampleUnfinished.tags) :=
  finish_idempotent sampleUnfinished 9 12

/-- Value bound to a key in an insertion-ordered Python dict of tags. -/
def lookupTag : List (String × String) → String → Option String
  | [], _ => none
  | (k', v) :: rest, k => if k = k' then some v else lookupTag rest k

/-- Overwriting an existing key binds it to the new value. -/
theorem lookupTag_map_self (d : List (String × String)) (k v : String)
    (h : d.any (fun kv => kv.1 = k) = true) :
    lookupTag (d.map (fun kv => if kv.1 = k then (k, v) else kv)) k = some v := by
  induction d with
  | nil => simp at h
  | cons kv rest ih =>
    simp only [List.map_cons]
    by_cases hk : kv.1 = k
    · rw [if_pos hk]
      simp [lookupTag]
    · rw [if_neg hk]
      simp only [List.any_cons, Bool.or_eq_true_iff, decide_eq_true_eq] at h
      rcases h with h | h
      · exact absurd h hk
      · simp only [lookupTag]
        rw [if_neg (fun he : k = kv.1 => hk he.symm)]
        exact ih h

/-- Overwriting one key leaves every other key's binding unchanged. -/
theorem lookupTag_map_other (d : List (String × String)) (k v k' : String)
    (hne : k' ≠ k) :
    lookupTag (d.map (fun kv => if kv.1 = k then (k, v) else kv)) k' = lookupTag d k' := by
  induction d with
  | nil => rfl
  | cons kv rest ih =>
    simp only [List.map_cons]
    by_cases hk : kv.1 = k
    · rw [if_pos hk]
      simp only [lookupTag]
      rw [if_neg hne, if_neg (fun he : k' = kv.1 => hne (he.trans hk))]
      exact ih
    · rw [if_neg hk]
      simp only [lookupTag]
      by_cases he : k' = kv.1
      · rw [if_pos he, if_pos he]
      · rw [if_neg he, if_neg he]
        exact ih

/-- Appending a fresh key binds it to the new value. -/
theorem lookupTag_append_self (d : List (String × String)) (k v : String)
    (h : d.any (fun kv => kv.1 = k) = false) :
    lookupTag (d ++ [(k, v)]) k = some v := by
  induction d with
  | nil => simp [lookupTag]
  | cons kv rest ih =>
    simp only [List.any_cons, Bool.or_eq_false_iff, decide_eq_false_iff_not] at h
    rw [List.cons_append]
    simp only [lookupTag]
    rw [if_neg (fun he : k = kv.1 => h.1 he.symm)]
    exact ih h.2

/-- Appending a fresh key leaves every other key's binding unchanged. -/
theorem lookupTag_append_other (d : List (String × String)) (k v k' : String)
    (hne : k' ≠ k) :
    lookupTag (d ++ [(k, v)]) k' = lookupTag d k' := by
  induction d with
  | nil => simp [lookupTag, hne]
  | cons kv rest ih =>
    rw [List.cons_append]
    simp only [lookupTag]
    by_cases he : k' = kv.1
    · rw [if_pos he, if_pos he]
    · rw [if_neg he, if_neg he]
      exact ih

/-- After a dict update the updated key is bound to the new value. -/
theorem lookupTag_dictInsert_self (d : List (String × String)) (k v : String) :
    lookupTag (dictInsert d k v) k = some v := by
  cases hB : d.any (fun kv => kv.1 = k) with
  | true =>
    rw [dictInsert, if_pos hB]
    exact lookupTag_map_self d k v hB
  | false =>
    rw [dictInsert, if_neg (by simp [hB])]
    exact lookupTag_append_self d k v hB

/-- A dict update leaves every other key's binding unchanged. -/
theorem lookupTag_dictInsert_other (d : List (String × String)) (k v k' : String)
    (hne : k' ≠ k) : lookupTag (dictInsert d k v) k' = lookupTag d k' := by
  cases hB : d.any (fun kv => kv.1 = k) with
  | true =>
    rw [dictInsert, if_pos hB]
    exact lookupTag_map_other d k v k' hne
  | false =>
    rw [dictInsert, if_neg (by simp [hB])]
    exact lookupTag_append_other d k v k' hne

/-- C5: `tag_execution` fails with a type error exactly when the key or value
is not a string; otherwise it returns a copy of the test data whose only
change is that `tags` now maps the key to the value, overwriting any previous
binding for that key and leaving every other tag unchanged.  All other core
operations in this model are total functions, so this is the only error the
core propagates. -/
theorem tag_execution_spec (t : TestData) (key val : PyVal) :
    ((∃ r, t.tag_execution key val = .ok r) ↔ key.isStr = true ∧ val.isStr = true)
    ∧ (∀ k v, key = .str k → val = .str v →
        t.tag_execution key val = .ok { t with tags := dictInsert t.tags k v }
        ∧ lookupTag (dictInsert t.tags k v) k = some v
        ∧ (∀ k', k' ≠ k →
            lookupTag (dictInsert t.tags k v) k' = lookupTag t.tags k')) := by
  constructor
  · constructor
    · rintro ⟨r, hr⟩
      cases key <;> cases val <;> simp_all [TestData.tag_execution, PyVal.isStr]
    · rintro ⟨hk, hv⟩
      cases key <;> cases val <;> simp_all [TestData.tag_execution, PyVal.isStr]
  · rintro k v rfl rfl
    exact ⟨rfl, lookupTag_dictInsert_self t.tags k v,
      fun k' hk' => lookupTag_dictInsert_other t.tags k v k' hk'⟩

/-- Witness for C5: tagging a concrete test with a string key and value
succeeds and binds the tag; the error side is exercised through the iff at a
non-string key. -/
theorem tag_execution_spec_witness :
    ((∃ r, sampleFinished.tag_execution (.str "team") (.str "blue") = .ok r)
      ↔ (PyVal.str "team").isStr = true ∧ (PyVal.str "blue").isStr = true)
    ∧ (∀ k v, PyVal.str "team" = .str k → PyVal.str "blue" = .str v →
        sampleFinished.tag_execution (.str "team") (.str "blue")
          = .ok { sampleFinished with tags := dictInsert sampleFinished.tags k v }
        ∧ lookupTag (dictInsert sampleFinished.tags k v) k = some v
        ∧ (∀ k', k' ≠ k →
            lookupTag (dictInsert sampleFinished.tags k v) k'
              = lookupTag sampleFinished.tags k')) :=
  tag_execution_spec sampleFinished (.str "team") (.str "blue")

/-- C6: a span's JSON always carries `section` and `duration` (in seconds),
carries `start_at`/`end_at` exactly when the corresponding instant is
present — encoded as seconds elapsed since the run start, never as the
absolute instant — and omits `detail` exactly when absent. -/
theorem span_as_json_offsets (s : TestSpan) (r : Instant) :
    kvLookup "section" (s.as_json r) = some (Json.str s.sectionName)
    ∧ kvLookup "duration" (s.as_json r) = some (Json.num s.duration)
    ∧ (∀ t, s.start_at = some t →
        kvLookup "start_at" (s.as_json r) = some (Json.num (t - r)))
    ∧ (s.start_at = none → kvLookup "start_at" (s.as_json r) = none)
    ∧ (∀ t, s.end_at = some t →
        kvLookup "end_at" (s.as_json r) = some (Json.num (t - r)))
    ∧ (s.end_at = none → kvLookup "end_at" (s.as_json r) = none)
    ∧ (∀ d, s.detail = some d →
        kvLookup "detail" (s.as_json r) = some (Json.str d))
    ∧ (s.detail = none → kvLookup "detail" (s.as_json r) = none) := by
  obtain ⟨sec, dur, sa, ea, de⟩ := s
  rcases sa with _ | t1 <;> rcases ea with _ | t2 <;> rcases de with _ | d <;>
    simp [TestSpan.as_json, kvLookup]

/-- A sample span with both instants and a detail present. -/
def sampleSpan : TestSpan :=
  { sectionName := "http", duration := 3, start_at := some 4, end_at := some 6,
    detail := some "GET /" }

/-- Witness for C6 at a concrete span and run start instant 2. -/
theorem span_as_json_offsets_witness :
    kvLookup "section" (sampleSpan.as_json 2) = some (Json.str sampleSpan.sectionName)
    ∧ kvLookup "duration" (sampleSpan.as_json 2) = some (Json.num sampleSpan.duration)
    ∧ (∀ t, sampleSpan.start_at = some t →
        kvLookup "start_at" (sampleSpan.as_json 2) = some (Json.num (t - 2)))
    ∧ (sampleSpan.start_at = none → kvLookup "start_at" (sampleSpan.as_json 2) = none)
    ∧ (∀ t, sampleSpan.end_at = some t →
        kvLookup "end_at" (sampleSpan.as_json 2) = some (Json.num (t - 2)))
    ∧ (sampleSpan.end_at = none → kvLookup "end_at" (sampleSpan.as_json 2) = none)
    ∧ (∀ d, sampleSpan.detail = some d →
        kvLookup "detail" (sampleSpan.as_json 2) = some (Json.str d))
    ∧ (sampleSpan.detail = none → kvLookup "detail" (sampleSpan.as_json 2) = none) :=
  span_as_json_offsets sampleSpan 2

/-- C7: a test's JSON carries `result` exactly when a result was set, with the
value naming the variant; `failure_reason`/`failure_expanded` appear exactly
when the result is failed and the corresponding field is present; `tags` is
omitted exactly when the tag map is empty. -/
theorem testdata_as_json_result_tags (t : TestData) (r : Instant) :
    (t.result = none → kvLookup "result" (t.as_json r) = none)
    ∧ (t.result = some .passed →
        kvLookup "result" (t.as_json r) = some (Json.str "passed"))
    ∧ (t.result = some .skipped →
        kvLookup "result" (t.as_json r) = some (Json.str "skipped"))
    ∧ (∀ fr fe, t.result = some (.failed ⟨fr, fe⟩) →
        kvLookup "result" (t.as_json r) = some (Json.str "failed")
        ∧ kvLookup "failure_reason" (t.as_json r) = fr.map Json.str
        ∧ kvLookup "failure_expanded" (t.as_json r) = fe.map expandedJson)
    ∧ ((t.result = none ∨ t.result = some .passed ∨ t.result = some .skipped) →
        kvLookup "failure_reason" (t.as_json r) = none
        ∧ kvLookup "failure_expanded" (t.as_json r) = none)
    ∧ (t.tags = [] → kvLookup "tags" (t.as_json r) = none)
    ∧ (∀ kv l, t.tags = kv :: l →
        kvLookup "tags" (t.as_json r)
          = some (Json.obj ((kv :: l).map (fun x => (x.1, Json.str x.2))))) := by
  refine ⟨?_, ?_, ?_, ?_, ?_, ?_, ?_⟩
  · intro h
    rcases ht : t.tags with _ | ⟨kv0, l0⟩ <;> simp [TestData.as_json, h, ht, kvLookup]
  · intro h
    rcases ht : t.tags with _ | ⟨kv0, l0⟩ <;> simp [TestData.as_json, h, ht, kvLookup]
  · intro h
    rcases ht : t.tags with _ | ⟨kv0, l0⟩ <;> simp [TestData.as_json, h, ht, kvLookup]
  · intro fr fe h
    rcases fr with _ | fr <;> rcases fe with _ | fe <;>
      rcases ht : t.tags with _ | ⟨kv0, l0⟩ <;>
        simp [TestData.as_json, h, ht, kvLookup]
  · intro h
    rcases h with h | h | h <;>
      rcases ht : t.tags with _ | ⟨kv0, l0⟩ <;>
        simp [TestData.as_json, h, ht, kvLookup]
  · intro h
    rcases hr : t.result with _ | rv
    · simp [TestData.as_json, h, hr, kvLookup]
    · rcases rv with _ | ⟨fr, fe⟩ | _
      · simp [TestData.as_json, h, hr, kvLookup]
      · rcases fr with _ | fr <;> rcases fe with _ | fe <;>
          simp [TestData.as_json, h, hr, kvLookup]
      · simp [TestData.as_json, h, hr, kvLookup]
  · intro kv l h
    rcases hr : t.result with _ | rv
    · simp [TestData.as_json, h, hr, kvLookup]
    · rcases rv with _ | ⟨fr, fe⟩ | _
      · simp [TestData.as_json, h, hr, kvLookup]
      · rcases fr with _ | fr <;> rcases fe with _ | fe <;>
          simp [TestData.as_json, h, hr, kvLookup]
      · simp [TestData.as_json, h, hr, kvLookup]

/-- A sample failed test execution with a reason, no expansion, and one tag. -/
def sampleFailed : TestData :=
  { id := "0004", scope := "suite", name := "test four",
    history := { start_at := some 5, end_at := some 11, duration := some 6 },
    tags := [("team", "blue")],
    result := some (.failed ⟨some "assertion failed", none⟩) }

/-- Witness for C7 at a concrete failed, tagged test and run start instant 2. -/
theorem testdata_as_json_result_tags_witness :
    (sampleFailed.result = none → kvLookup "result" (sampleFailed.as_json 2) = none)
    ∧ (sampleFailed.result = some .passed →
        kvLookup "result" (sampleFailed.as_json 2) = some (Json.str "passed"))
    ∧ (sampleFailed.result = some .skipped →
        kvLookup "result" (sampleFailed.as_json 2) = some (Json.str "skipped"))
    ∧ (∀ fr fe, sampleFailed.result = some (.failed ⟨fr, fe⟩) →
        kvLookup "result" (sampleFailed.as_json 2) = some (Json.str "failed")
        ∧ kvLookup "failure_reason" (sampleFailed.as_json 2) = fr.map Json.str
        ∧ kvLookup "failure_expanded" (sampleFailed.as_json 2) = fe.map expandedJson)
    ∧ ((sampleFailed.result = none ∨ sampleFailed.result = some .passed
          ∨ sampleFailed.result = some .skipped) →
        kvLookup "failure_reason" (sampleFailed.as_json 2) = none
        ∧ kvLookup "failure_expanded" (sampleFailed.as_json 2) = none)
    ∧ (sampleFailed.tags = [] → kvLookup "tags" (sampleFailed.as_json 2) = none)
    ∧ (∀ kv l, sampleFailed.tags = kv :: l →
        kvLookup "tags" (sampleFailed.as_json 2)
          = some (Json.obj ((kv :: l).map (fun x => (x.1, Json.str x.2))))) :=
  testdata_as_json_result_tags sampleFailed 2

/-- C10: a test's JSON always carries the keys `location` and `file_name`,
bound to the JSON encoding of the optional field — `null` when unset, the
string when set — unlike `tags` and `result`, which can be omitted. -/
theorem testdata_as_json_location_file_name (t : TestData) (r : Instant) :
    kvLookup "location" (t.as_json r) = some (optStrJson t.location)
    ∧ kvLookup "file_name" (t.as_json r) = some (optStrJson t.file_name)
    ∧ optStrJson none = Json.null
    ∧ (∀ s, optStrJson (some s) = Json.str s) := by
  refine ⟨?_, ?_, rfl, fun s => rfl⟩ <;>
    simp [TestData.as_json, kvLookup, List.cons_append]

/-- One submit step is produced per batch. -/
theorem submitGo_length (transport : Nat → HttpResult) :
    ∀ (batches : List Payload) (i : Nat),
      (submitGo transport i batches).length = batches.length := by
  intro batches
  induction batches with
  | nil => intro i; rfl
  | cons b rest ih => intro i; simp [submitGo, ih]

/-- The `j`-th submit step is determined by the `j`-th batch and the
transport's outcome for the `j`-th request alone. -/
theorem submitGo_getElem (transport : Nat → HttpResult) :
    ∀ (batches : List Payload) (i j : Nat),
      (submitGo transport i batches)[j]?
        = (batches[j]?).map (fun b => submitStep (transport (i + j)) b) := by
  intro batches
  induction batches with
  | nil => intro i j; simp [submitGo]
  | cons b rest ih =>
    intro i j
    cases j with
    | zero => simp [submitGo]
    | succ m =>
      have harith : i + 1 + m = i + (m + 1) := by omega
      simp [submitGo, ih (i + 1) m, harith]

/-- C8: with no configured credential, or an empty/whitespace-only one,
`submit` yields `None` for every batch — one outcome per batch — and issues
no network request at all. -/
theorem submit_no_credential (token : Option String) (transport : Nat → HttpResult)
    (p : Payload) (bs : Nat) (h : tokenValid token = false) :
    (API.submit token transport p bs).length = (p.into_batches bs).length
    ∧ ∀ step ∈ API.submit token transport p bs,
        step.result = none ∧ step.request = none := by
  constructor
  · simp [API.submit, h]
  · intro step hstep
    simp only [API.submit, h, Bool.false_eq_true, if_false, List.mem_map] at hstep
    obtain ⟨b, _, rfl⟩ := hstep
    exact ⟨rfl, rfl⟩

/-- A transport in which every request would succeed with 202. -/
def sampleTransport : Nat → HttpResult :=
  fun _ => .response 202 (Json.obj [("queued", Json.num 1)])

/-- Witness for C8: a missing credential over the sample payload at batch
size 1 produces a `None` step per batch and no request. -/
theorem submit_no_credential_witness :
    (API.submit none sampleTransport samplePayload 1).length
        = (samplePayload.into_batches 1).length
    ∧ ∀ step ∈ API.submit none sampleTransport samplePayload 1,
        step.result = none ∧ step.request = none :=
  submit_no_credential none sampleTransport samplePayload 1 rfl

/-- C9: with a usable credential, `submit` produces exactly one outcome per
batch, and each batch's outcome depends only on its own request: a timeout on
the `j`-th request yields `None` for batch `j` with a warning carrying the
exception's type name, while a 2xx response on the `j`-th request yields that
response — regardless of what happened to any other batch, so one batch's
timeout never aborts the rest. -/
theorem submit_timeout_isolated (token : Option String) (transport : Nat → HttpResult)
    (p : Payload) (bs : Nat) (h : tokenValid token = true) :
    (API.submit token transport p bs).length = (p.into_batches bs).length
    ∧ (∀ j b n m, (p.into_batches bs)[j]? = some b → transport j = .timeout n m →
        (API.submit token transport p bs)[j]?
          = some { result := none, warning := some (n, m),
                   request := some (Json.obj (b.as_json).1) })
    ∧ (∀ j b st body, (p.into_batches bs)[j]? = some b →
        transport j = .response st body → 200 ≤ st → st < 300 →
        (API.submit token transport p bs)[j]?
          = some { result := some (st, body), warning := none,
                   request := some (Json.obj (b.as_json).1) }) := by
  refine ⟨?_, ?_, ?_⟩
  · simp [API.submit, h, submitGo_length]
  · intro j b n m hb ht
    simp only [API.submit, h, if_true, submitGo_getElem transport _ 0 j, hb,
      Nat.zero_add, Option.map_some]
    simp [submitStep, ht]
  · intro j b st body hb ht h1 h2
    simp only [API.submit, h, if_true, submitGo_getElem transport _ 0 j, hb,
      Nat.zero_add, Option.map_some]
    simp [submitStep, ht, h1, h2]

/-- A transport whose first request times out and whose later requests
succeed with 202, as in the two-batch test. -/
def sampleTransport2 : Nat → HttpResult :=
  fun i =>
    if i = 0 then .timeout "ConnectTimeout" "Error"
    else .response 202 (Json.obj [("queued", Json.num 1)])

/-- A sample payload holding two finished test executions. -/
def samplePayload2 : Payload :=
  { run_env := ⟨Json.null⟩, data := [sampleFinished, sampleFailed],
    started_at := some 2, finished_at := none }

/-- Witness for C9: two batches (batch size 1) where the first request times
out and the second succeeds with 202. -/
theorem submit_timeout_isolated_witness :
    (API.submit (some "token") sampleTransport2 samplePayload2 1).length
        = (samplePayload2.into_batches 1).length
    ∧ (∀ j b n m, (samplePayload2.into_batches 1)[j]? = some b →
        sampleTransport2 j = .timeout n m →
        (API.submit (some "token") sampleTransport2 samplePayload2 1)[j]?
          = some { result := none, warning := some (n, m),
                   request := some (Json.obj (b.as_json).1) })
    ∧ (∀ j b st body, (samplePayload2.into_batches 1)[j]? = some b →
        sampleTransport2 j = .response st body → 200 ≤ st → st < 300 →
        (API.submit (some "token") sampleTransport2 samplePayload2 1)[j]?
          = some { result := some (st, body), warning := none,
                   request := some (Json.obj (b.as_json).1) }) :=
  submit_timeout_isolated (some "token") sampleTransport2 samplePayload2 1 (by decide)
